import Mathlib

/-!
Verification of the staged-upload lifecycle of the cashflow server.

The Go sources under `internal/upload` (service.go, repository.go, model.go)
are embedded shallowly: the `upload_requests` table is a `List UploadRecord`,
the object store is the list of keys currently present, and every service
operation is a pure state transformer.  Remote failures (store connectivity,
failed SQL writes) are injected through explicit fault flags, and each
operation additionally returns the ordered trace of gateway/ledger calls it
issued, so that ordering properties can be stated.
-/

namespace Cashflow

/-- Upload status enumeration from `internal/upload/model.go`. -/
inductive UploadStatus where
  | pending
  | completed
  | failed
  | expired
  deriving DecidableEq, Repr

/-- A row of the `upload_requests` table (`internal/upload/model.go`,
`UploadRecord`).  Timestamps are unix seconds, uuids are abstracted as `Nat`,
`completedAt` and `transactionID` are the two nullable columns. -/
structure UploadRecord where
  id : Nat
  uploadID : String
  s3Key : String
  contentType : String
  fileSize : Int
  status : UploadStatus
  presignedURLExpiresAt : Nat
  createdAt : Nat
  completedAt : Option Nat
  transactionID : Option Nat
  deriving DecidableEq, Repr

/-- Go `%02d` formatting of the month in `RequestUpload`. -/
def pad2 (n : Nat) : String :=
  if n < 10 then "0" ++ toString n else toString n

/-- `isValidContentType` (`service.go` lines 220-228): membership in the
four-entry allow-list map. -/
def isValidContentType (contentType : String) : Bool :=
  contentType = "image/jpeg" || contentType = "image/jpg" ||
    contentType = "image/png" || contentType = "image/webp"

/-- Go `strings.Split` for a one-character separator: splits at every
occurrence, keeping empty segments (`""` splits to `[""]`). -/
def goSplit (sep : Char) : List Char → List (List Char)
  | [] => [[]]
  | c :: rest =>
    if c = sep then [] :: goSplit sep rest
    else
      match goSplit sep rest with
      | [] => [[c]]
      | seg :: segs => (c :: seg) :: segs

/-- `getExtensionFromContentType` (`service.go` lines 230-249): map lookup,
then fallback to splitting the content type on `/`, then the `.jpg` default. -/
def getExtensionFromContentType (contentType : String) : String :=
  if contentType = "image/jpeg" then ".jpg"
  else if contentType = "image/jpg" then ".jpg"
  else if contentType = "image/png" then ".png"
  else if contentType = "image/webp" then ".webp"
  else
    match goSplit '/' contentType.data with
    | [_, second] => "." ++ String.mk second
    | _ => ".jpg"

/-- The staging key built by `RequestUpload` (`service.go` lines 43-51):
`fmt.Sprintf("staging/%d/%02d/%s_%d%s", year, month, uploadID, unix, ext)`. -/
def stagingS3Key (year month : Nat) (uploadID : String) (unix : Nat)
    (contentType : String) : String :=
  "staging/" ++ toString year ++ "/" ++ pad2 month ++ "/" ++ uploadID ++ "_"
    ++ toString unix ++ getExtensionFromContentType contentType

/-- Go `strings.Replace(s, pat, rep, 1)` on character lists (first occurrence
only; all uses in the service have a non-empty `pat`). -/
def replaceFirstAux (pat rep : List Char) : List Char → List Char
  | [] => []
  | c :: rest =>
    if (c :: rest).take pat.length = pat then rep ++ (c :: rest).drop pat.length
    else c :: replaceFirstAux pat rep rest

/-- Go `strings.Replace(s, pat, rep, 1)` for non-empty `pat`, as used at
`service.go` line 161 to derive the permanent key. -/
def goReplaceOnce (s pat rep : String) : String :=
  ⟨replaceFirstAux pat.data rep.data s.data⟩

/-- `Repository.GetByUploadID` (`repository.go` lines 53-85): the first row
whose `upload_id` matches (`upload_id` carries a UNICITY constraint in the
schema, so at most one row matches); `none` models `sql.ErrNoRows`. -/
def getByUploadID : List UploadRecord → String → Option UploadRecord
  | [], _ => none
  | r :: rest, uploadID =>
    if r.uploadID = uploadID then some r else getByUploadID rest uploadID

/-- Row transformation of `Repository.UpdateStatus` (`repository.go` lines
87-122): `SET status` on every row matching `upload_id`, additionally setting
`completed_at = NOW()` when the new status is `completed`. -/
def updateStatusLedger (ledger : List UploadRecord) (uploadID : String)
    (st : UploadStatus) (now : Nat) : List UploadRecord :=
  ledger.map fun r =>
    if r.uploadID = uploadID then
      if st = UploadStatus.completed then { r with status := st, completedAt := some now }
      else { r with status := st }
    else r

/-- `Repository.UpdateStatus`: errors when zero rows were affected. -/
def UpdateStatus (ledger : List UploadRecord) (uploadID : String)
    (st : UploadStatus) (now : Nat) : Except Unit (List UploadRecord) :=
  if ledger.any (fun r => r.uploadID = uploadID) then
    Except.ok (updateStatusLedger ledger uploadID st now)
  else Except.error ()

/-- Row transformation of `Repository.LinkToTransaction` (`repository.go`
lines 124-146): `SET transaction_id = $1, status = completed,
completed_at = NOW() WHERE upload_id = $3` — the `WHERE` clause matches on
`upload_id` alone, with no condition on the current `transaction_id`. -/
def linkLedger (ledger : List UploadRecord) (uploadID : String) (txID : Nat)
    (now : Nat) : List UploadRecord :=
  ledger.map fun r =>
    if r.uploadID = uploadID then
      { r with transactionID := some txID, status := UploadStatus.completed,
               completedAt := some now }
    else r

/-- `Repository.LinkToTransaction`: errors only when zero rows were affected. -/
def LinkToTransaction (ledger : List UploadRecord) (uploadID : String)
    (txID : Nat) (now : Nat) : Except Unit (List UploadRecord) :=
  if ledger.any (fun r => r.uploadID = uploadID) then
    Except.ok (linkLedger ledger uploadID txID now)
  else Except.error ()

/-- `Repository.GetOrphanedUploads` (`repository.go` lines 148-192): rows with
`status = pending`, `transaction_id IS NULL` and
`created_at < NOW() - INTERVAL hoursOld hours`. -/
def GetOrphanedUploads (ledger : List UploadRecord) (hoursOld : Nat)
    (now : Nat) : List UploadRecord :=
  ledger.filter fun r =>
    decide (r.status = UploadStatus.pending ∧ r.transactionID = none ∧
      r.createdAt + hoursOld * 3600 < now)

/-- The durable state the coordinator acts on: the upload ledger and the set
of keys currently present in the object store. -/
structure World where
  ledger : List UploadRecord
  store : List String
  deriving DecidableEq, Repr

/-- One gateway or ledger call issued by a coordinator operation, in issue
order. -/
inductive Event where
  | ledgerGet (uploadID : String)
  | s3Exists (key : String)
  | s3Copy (src dst : String)
  | s3Delete (key : String)
  | ledgerLink (uploadID : String) (txID : Nat)
  | ledgerUpdate (uploadID : String) (st : UploadStatus)
  | ledgerGetOrphans (hoursOld : Nat)
  deriving DecidableEq, Repr

/-- Error taxonomy of the coordinator (one constructor per distinct
`fmt.Errorf` failure reason of `service.go`). -/
inductive SvcErr where
  | recordNotFound
  | conflict
  | storeErr
  | objectNotFound
  | promotionErr
  | persistenceErr
  | credentialErr
  | invalidContentType
  | sizeExceeded
  | ledgerErr
  deriving DecidableEq, Repr

/-- The two validation failures of `RequestUpload`. -/
def SvcErr.isValidation : SvcErr → Bool
  | SvcErr.invalidContentType => true
  | SvcErr.sizeExceeded => true
  | _ => false

instance {ε α : Type} [DecidableEq ε] [DecidableEq α] : DecidableEq (Except ε α) :=
  fun x y =>
    match x, y with
    | Except.ok a, Except.ok b =>
      if h : a = b then Decidable.isTrue (by rw [h])
      else Decidable.isFalse (by intro hc; cases hc; exact h rfl)
    | Except.error a, Except.error b =>
      if h : a = b then Decidable.isTrue (by rw [h])
      else Decidable.isFalse (by intro hc; cases hc; exact h rfl)
    | Except.ok _, Except.error _ => Decidable.isFalse (by intro hc; cases hc)
    | Except.error _, Except.ok _ => Decidable.isFalse (by intro hc; cases hc)

/-- Injected remote failures for one `VerifyAndLinkUpload` invocation (the
object-store existence check, copy and delete, and the linking write). -/
structure VFaults where
  existsErr : Bool
  copyErr : Bool
  deleteErr : Bool
  linkErr : Bool
  deriving DecidableEq, Repr

/-- Outcome of one `VerifyAndLinkUpload` invocation. -/
structure VResult where
  result : Except SvcErr String
  world : World
  trace : List Event
  deriving DecidableEq, Repr

/-- Effect of `s3Service.DeleteImage` on the store: a no-op success for the
empty key (`s3/service.go`), otherwise removal unless the injected fault
fires (in which case the service only logs). -/
def deleteEffect (store : List String) (failed : Bool) (key : String) :
    List String :=
  if key = "" then store
  else if failed then store
  else store.filter fun k => k ≠ key

/-- `VerifyAndLinkUpload` (`service.go` lines 135-189).  Empty token: no-op
success.  Then: read the record; conflict when `TransactionID` is set;
existence check on the staging key; derive the permanent key by replacing the
first `staging/` with `transactions/`; copy; best-effort delete of the staging
key; `LinkToTransaction` as the single ledger write. -/
def VerifyAndLinkUpload (w : World) (f : VFaults) (uploadID : String)
    (txID : Nat) (now : Nat) : VResult :=
  if uploadID = "" then ⟨Except.ok "", w, []⟩
  else
    match getByUploadID w.ledger uploadID with
    | none => ⟨Except.error SvcErr.recordNotFound, w, [Event.ledgerGet uploadID]⟩
    | some record =>
      if record.transactionID ≠ none then
        ⟨Except.error SvcErr.conflict, w, [Event.ledgerGet uploadID]⟩
      else if f.existsErr then
        ⟨Except.error SvcErr.storeErr, w,
          [Event.ledgerGet uploadID, Event.s3Exists record.s3Key]⟩
      else if record.s3Key ∈ w.store then
        let permanentKey := goReplaceOnce record.s3Key "staging/" "transactions/"
        if f.copyErr then
          ⟨Except.error SvcErr.promotionErr, w,
            [Event.ledgerGet uploadID, Event.s3Exists record.s3Key,
             Event.s3Copy record.s3Key permanentKey]⟩
        else
          let store2 := deleteEffect (permanentKey :: w.store) f.deleteErr record.s3Key
          let tr := [Event.ledgerGet uploadID, Event.s3Exists record.s3Key,
            Event.s3Copy record.s3Key permanentKey, Event.s3Delete record.s3Key,
            Event.ledgerLink uploadID txID]
          if f.linkErr then
            ⟨Except.error SvcErr.persistenceErr, ⟨w.ledger, store2⟩, tr⟩
          else
            match LinkToTransaction w.ledger uploadID txID now with
            | Except.error _ =>
              ⟨Except.error SvcErr.persistenceErr, ⟨w.ledger, store2⟩, tr⟩
            | Except.ok ledger2 =>
              ⟨Except.ok permanentKey, ⟨ledger2, store2⟩, tr⟩
      else
        ⟨Except.error SvcErr.objectNotFound, w,
          [Event.ledgerGet uploadID, Event.s3Exists record.s3Key]⟩

/-- Injected failures for one `GetUploadStatus` invocation. -/
structure GFaults where
  existsErr : Bool
  updateErr : Bool
  deriving DecidableEq, Repr

/-- `UploadStatusResponse` (`model.go`). -/
structure UploadStatusResponse where
  uploadID : String
  status : UploadStatus
  s3Key : String
  contentType : String
  fileSize : Int
  createdAt : Nat
  completedAt : Option Nat
  deriving DecidableEq, Repr

/-- The response literal built at the end of `GetUploadStatus` from the local
`record` variable. -/
def mkStatusResponse (r : UploadRecord) : UploadStatusResponse :=
  ⟨r.uploadID, r.status, r.s3Key, r.contentType, r.fileSize, r.createdAt,
    r.completedAt⟩

/-- Outcome of one `GetUploadStatus` invocation. -/
structure GResult where
  result : Except SvcErr UploadStatusResponse
  world : World
  trace : List Event
  deriving DecidableEq, Repr

/-- `GetUploadStatus` (`service.go` lines 99-133).  For a pending record it
opportunistically checks the store; when the object exists it persists
`completed`, and only on a successful persist does it update the local copy
whose fields form the response.  Both the existence-check failure and the
persist failure are logged and do not fail the call. -/
def GetUploadStatus (w : World) (f : GFaults) (uploadID : String) (now : Nat) :
    GResult :=
  match getByUploadID w.ledger uploadID with
  | none => ⟨Except.error SvcErr.recordNotFound, w, [Event.ledgerGet uploadID]⟩
  | some record =>
    if record.status = UploadStatus.pending then
      if f.existsErr then
        ⟨Except.ok (mkStatusResponse record), w,
          [Event.ledgerGet uploadID, Event.s3Exists record.s3Key]⟩
      else if record.s3Key ∈ w.store then
        if f.updateErr then
          ⟨Except.ok (mkStatusResponse record), w,
            [Event.ledgerGet uploadID, Event.s3Exists record.s3Key,
             Event.ledgerUpdate uploadID UploadStatus.completed]⟩
        else
          match UpdateStatus w.ledger uploadID UploadStatus.completed now with
          | Except.error _ =>
            ⟨Except.ok (mkStatusResponse record), w,
              [Event.ledgerGet uploadID, Event.s3Exists record.s3Key,
               Event.ledgerUpdate uploadID UploadStatus.completed]⟩
          | Except.ok ledger2 =>
            ⟨Except.ok (mkStatusResponse { record with status := UploadStatus.completed }),
              ⟨ledger2, w.store⟩,
              [Event.ledgerGet uploadID, Event.s3Exists record.s3Key,
               Event.ledgerUpdate uploadID UploadStatus.completed]⟩
      else
        ⟨Except.ok (mkStatusResponse record), w,
          [Event.ledgerGet uploadID, Event.s3Exists record.s3Key]⟩
    else ⟨Except.ok (mkStatusResponse record), w, [Event.ledgerGet uploadID]⟩

/-- Injected failures for one `CleanupOrphanedUploads` invocation, per-orphan
flags keyed by `uploadID`. -/
structure CFaults where
  getErr : Bool
  deleteErr : String → Bool
  updateErr : String → Bool

/-- Outcome of one `CleanupOrphanedUploads` invocation; `loggedCount` is the
count the service logs after the loop (the function itself returns no count). -/
structure CResult where
  result : Except SvcErr Unit
  world : World
  trace : List Event
  loggedCount : Option Nat

/-- Loop body of `CleanupOrphanedUploads` for one orphan: best-effort store
delete, then best-effort `UpdateStatus` to `expired`; both failures are only
logged and the loop continues. -/
def cleanupStep (f : CFaults) (now : Nat) (acc : World × List Event)
    (o : UploadRecord) : World × List Event :=
  let store2 := deleteEffect acc.1.store (f.deleteErr o.uploadID) o.s3Key
  let ledger2 :=
    if f.updateErr o.uploadID then acc.1.ledger
    else
      match UpdateStatus acc.1.ledger o.uploadID UploadStatus.expired now with
      | Except.error _ => acc.1.ledger
      | Except.ok l2 => l2
  (⟨ledger2, store2⟩,
    acc.2 ++ [Event.s3Delete o.s3Key, Event.ledgerUpdate o.uploadID UploadStatus.expired])

/-- `CleanupOrphanedUploads` (`service.go` lines 191-218): select orphans
older than a fixed 24 hours, process each in order, log the count, return
only success/failure. -/
def CleanupOrphanedUploads (w : World) (f : CFaults) (now : Nat) : CResult :=
  if f.getErr then ⟨Except.error SvcErr.ledgerErr, w, [Event.ledgerGetOrphans 24], none⟩
  else
    let orphans := GetOrphanedUploads w.ledger 24 now
    let out := orphans.foldl (cleanupStep f now) (w, [Event.ledgerGetOrphans 24])
    ⟨Except.ok (), out.1, out.2, some orphans.length⟩

/-- Injected failures for one `RequestUpload` invocation. -/
structure RFaults where
  presignErr : Bool
  createErr : Bool
  deriving DecidableEq, Repr

/-- `UploadRequest` (`model.go`). -/
structure UploadRequest where
  contentType : String
  fileSize : Int
  deriving DecidableEq, Repr

/-- `UploadResponse` (`model.go`); the single header entry is its
Content-Type value. -/
structure UploadResponse where
  uploadID : String
  presignedURL : String
  method : String
  headerContentType : String
  key : String
  expiresAt : Nat
  deriving DecidableEq, Repr

/-- Outcome of one `RequestUpload` invocation. -/
structure RResult where
  result : Except SvcErr UploadResponse
  world : World
  deriving DecidableEq, Repr

/-- `RequestUpload` (`service.go` lines 28-97).  Validation, staging-key
construction, presigned-URL issuance, then persistence of the new pending
record; the fresh uuids, the presigned URL string and the issuance clock are
passed in as parameters. -/
def RequestUpload (w : World) (f : RFaults) (req : UploadRequest) (rowID : Nat)
    (uploadID : String) (purl : String) (year month unix : Nat) : RResult :=
  if ¬ isValidContentType req.contentType then
    ⟨Except.error SvcErr.invalidContentType, w⟩
  else if req.fileSize > 10 * 1024 * 1024 then
    ⟨Except.error SvcErr.sizeExceeded, w⟩
  else
    let s3Key := stagingS3Key year month uploadID unix req.contentType
    if f.presignErr then ⟨Except.error SvcErr.credentialErr, w⟩
    else if f.createErr then ⟨Except.error SvcErr.persistenceErr, w⟩
    else
      let record : UploadRecord :=
        { id := rowID, uploadID := uploadID, s3Key := s3Key,
          contentType := req.contentType, fileSize := req.fileSize,
          status := UploadStatus.pending,
          presignedURLExpiresAt := unix + 15 * 60, createdAt := unix,
          completedAt := none, transactionID := none }
      ⟨Except.ok ⟨uploadID, purl, "PUT", req.contentType, s3Key, unix + 15 * 60⟩,
        ⟨w.ledger ++ [record], w.store⟩⟩

/-! ## Helper lemmas -/

theorem getByUploadID_mem {l : List UploadRecord} {u : String} {r : UploadRecord}
    (h : getByUploadID l u = some r) : r ∈ l ∧ r.uploadID = u := by
  induction l with
  | nil => simp [getByUploadID] at h
  | cons x rest ih =>
    by_cases hx : x.uploadID = u
    · simp [getByUploadID, hx] at h
      subst h
      exact ⟨List.mem_cons_self _ _, hx⟩
    · simp [getByUploadID, hx] at h
      rcases ih h with ⟨h1, h2⟩
      exact ⟨List.mem_cons_of_mem _ h1, h2⟩

theorem getByUploadID_any {l : List UploadRecord} {u : String} {r : UploadRecord}
    (h : getByUploadID l u = some r) :
    (l.any fun x => x.uploadID = u) = true := by
  rcases getByUploadID_mem h with ⟨h1, h2⟩
  simp only [List.any_eq_true]
  exact ⟨r, h1, by simp [h2]⟩

theorem getByUploadID_map (l : List UploadRecord) (u : String)
    (g : UploadRecord → UploadRecord) (hg : ∀ r, (g r).uploadID = r.uploadID) :
    getByUploadID (l.map g) u = (getByUploadID l u).map g := by
  induction l with
  | nil => rfl
  | cons x rest ih =>
    by_cases hx : x.uploadID = u
    · simp [getByUploadID, hg, hx]
    · simp [getByUploadID, hg, hx, ih]

theorem replaceFirstAux_of_prefix (p : Char) (ps rep t : List Char) :
    replaceFirstAux (p :: ps) rep ((p :: ps) ++ t) = rep ++ t := by
  have hc : (p :: (ps ++ t)).take (p :: ps).length = p :: ps :=
    List.take_left (p :: ps) t
  have hd : (p :: (ps ++ t)).drop (p :: ps).length = t :=
    List.drop_left (p :: ps) t
  show replaceFirstAux (p :: ps) rep (p :: (ps ++ t)) = rep ++ t
  rw [replaceFirstAux, if_pos hc, hd]

theorem goReplaceOnce_staging (tail : String) :
    goReplaceOnce ("staging/" ++ tail) "staging/" "transactions/"
      = "transactions/" ++ tail := by
  have h := replaceFirstAux_of_prefix 's' "taging/".data "transactions/".data tail.data
  exact congrArg String.mk h

/-! ## C6: validation of `RequestUpload` -/

/-- C6: `RequestUpload` fails with a validation error if and only if the
content type is outside the allow-list (`image/jpeg`, `image/jpg`,
`image/png`, `image/webp`) or the declared size exceeds 10485760 bytes; in
particular a declared size of exactly 10 MiB with an allowed content type
never yields a validation error. -/
theorem requestUpload_validation_iff (w : World) (f : RFaults)
    (req : UploadRequest) (rowID : Nat) (uploadID purl : String)
    (year month unix : Nat) :
    ((∃ e, (RequestUpload w f req rowID uploadID purl year month unix).result
        = Except.error e ∧ e.isValidation = true)
      ↔ (isValidContentType req.contentType = false ∨ 10485760 < req.fileSize))
    ∧ ¬ (∃ e, (RequestUpload w f ⟨"image/png", 10485760⟩ rowID uploadID purl
          year month unix).result = Except.error e ∧ e.isValidation = true) := by
  constructor
  · by_cases h1 : isValidContentType req.contentType
    · by_cases h2 : req.fileSize > 10 * 1024 * 1024
      · have h2n : (10485760 : Int) < req.fileSize := by omega
        simp [RequestUpload, h1, h2, SvcErr.isValidation, h2n]
      · have h2n : ¬ (10485760 : Int) < req.fileSize := by omega
        by_cases hp : f.presignErr <;> by_cases hc : f.createErr <;>
          simp [RequestUpload, h1, h2, hp, hc, SvcErr.isValidation, h1, h2n]
    · simp [RequestUpload, h1, SvcErr.isValidation]
  · have hv : isValidContentType "image/png" = true := by decide
    have hs : ¬ ((10485760 : Int) > 10 * 1024 * 1024) := by omega
    by_cases hp : f.presignErr <;> by_cases hc : f.createErr <;>
      simp [RequestUpload, hv, hs, hp, hc, SvcErr.isValidation]

/-! ## C7: staging-key derivation -/

/-- C7: for every valid request within policy (and with the store reachable
and the insert succeeding, so that a response is returned) the staging key is
`staging/{year}/{month zero-padded to two digits}/{uploadID}_{unix}{ext}`,
where the extension is mapped from the content type (`image/jpeg` and
`image/jpg` give `.jpg`, `image/png` gives `.png`, `image/webp` gives
`.webp`); for content types outside the map the extension falls back to `.`
plus the segment after `/` when splitting yields exactly two segments, and to
`.jpg` otherwise. -/
theorem requestUpload_stagingKey_format (w : World) (f : RFaults)
    (req : UploadRequest) (rowID : Nat) (uploadID purl : String)
    (year month unix : Nat)
    (hv : isValidContentType req.contentType = true)
    (hs : req.fileSize ≤ 10485760)
    (hp : f.presignErr = false) (hc : f.createErr = false) :
    (∃ resp, (RequestUpload w f req rowID uploadID purl year month unix).result
        = Except.ok resp
      ∧ resp.key = "staging/" ++ toString year ++ "/" ++ pad2 month ++ "/"
          ++ uploadID ++ "_" ++ toString unix
          ++ getExtensionFromContentType req.contentType)
    ∧ getExtensionFromContentType "image/jpeg" = ".jpg"
    ∧ getExtensionFromContentType "image/jpg" = ".jpg"
    ∧ getExtensionFromContentType "image/png" = ".png"
    ∧ getExtensionFromContentType "image/webp" = ".webp"
    ∧ (∀ ct : String, ∀ first second : List Char,
        isValidContentType ct = false → goSplit '/' ct.data = [first, second] →
        getExtensionFromContentType ct = "." ++ String.mk second)
    ∧ (∀ ct : String, isValidContentType ct = false →
        (∀ first second : List Char, goSplit '/' ct.data ≠ [first, second]) →
        getExtensionFromContentType ct = ".jpg") := by
  have hsz : ¬ (req.fileSize > 10 * 1024 * 1024) := by omega
  refine ⟨?_, by decide, by decide, by decide, by decide, ?_, ?_⟩
  · have hres : (RequestUpload w f req rowID uploadID purl year month unix).result
        = Except.ok ⟨uploadID, purl, "PUT", req.contentType,
            stagingS3Key year month uploadID unix req.contentType, unix + 15 * 60⟩ := by
      have hsz2 : ¬ (10485760 : Int) < req.fileSize := by omega
      simp [RequestUpload, hv, hsz, hsz2, hp, hc]
    exact ⟨_, hres, rfl⟩
  · intro ct first second hct hsplit
    obtain ⟨⟨⟨e1, e2⟩, e3⟩, e4⟩ :
        ((¬ ct = "image/jpeg" ∧ ¬ ct = "image/jpg") ∧ ¬ ct = "image/png") ∧
          ¬ ct = "image/webp" := by
      simpa [isValidContentType] using hct
    simp [getExtensionFromContentType, e1, e2, e3, e4, hsplit]
  · intro ct hct hsplit
    obtain ⟨⟨⟨e1, e2⟩, e3⟩, e4⟩ :
        ((¬ ct = "image/jpeg" ∧ ¬ ct = "image/jpg") ∧ ¬ ct = "image/png") ∧
          ¬ ct = "image/webp" := by
      simpa [isValidContentType] using hct
    simp only [getExtensionFromContentType, if_neg e1, if_neg e2,
      if_neg e3, if_neg e4]

/-- C7 witness: concrete instantiation (`image/png`, 2 MiB, issuance
2025-07 at unix time 1700). -/
theorem requestUpload_stagingKey_format_witness :
    (∃ resp, (RequestUpload ⟨[], []⟩ ⟨false, false⟩ ⟨"image/png", 2097152⟩ 1
        "u" "p" 2025 7 1700).result = Except.ok resp
      ∧ resp.key = "staging/" ++ toString 2025 ++ "/" ++ pad2 7 ++ "/"
          ++ "u" ++ "_" ++ toString 1700
          ++ getExtensionFromContentType "image/png")
    ∧ getExtensionFromContentType "image/jpeg" = ".jpg"
    ∧ getExtensionFromContentType "image/jpg" = ".jpg"
    ∧ getExtensionFromContentType "image/png" = ".png"
    ∧ getExtensionFromContentType "image/webp" = ".webp"
    ∧ (∀ ct : String, ∀ first second : List Char,
        isValidContentType ct = false → goSplit '/' ct.data = [first, second] →
        getExtensionFromContentType ct = "." ++ String.mk second)
    ∧ (∀ ct : String, isValidContentType ct = false →
        (∀ first second : List Char, goSplit '/' ct.data ≠ [first, second]) →
        getExtensionFromContentType ct = ".jpg") :=
  requestUpload_stagingKey_format ⟨[], []⟩ ⟨false, false⟩ ⟨"image/png", 2097152⟩
    1 "u" "p" 2025 7 1700 (by decide) (by decide) rfl rfl

/-! ## C2: the linking write is not conditional on `transaction_id` -/

/-- C2 counterexample: on a ledger whose only record is already linked to
transaction 7, `LinkToTransaction` succeeds anyway and overwrites the link
with transaction 9 (the `UPDATE` matches on `upload_id` alone), refuting both
"succeeds only if the matched record's `transaction_id` is currently null"
and "fails without modifying the record otherwise". -/
theorem linkToTransaction_not_conditional_cex :
    (⟨1, "t", "staging/a", "image/png", 10, UploadStatus.completed, 0, 0,
        some 3, some 7⟩ : UploadRecord).transactionID = some 7
    ∧ LinkToTransaction [⟨1, "t", "staging/a", "image/png", 10,
        UploadStatus.completed, 0, 0, some 3, some 7⟩] "t" 9 50
      = Except.ok [⟨1, "t", "staging/a", "image/png", 10,
          UploadStatus.completed, 0, 0, some 50, some 9⟩]
    ∧ ([⟨1, "t", "staging/a", "image/png", 10, UploadStatus.completed, 0, 0,
          some 50, some 9⟩] : List UploadRecord)
        ≠ [⟨1, "t", "staging/a", "image/png", 10, UploadStatus.completed, 0, 0,
          some 3, some 7⟩] := by
  refine ⟨rfl, by decide, by decide⟩

/-- C2 (amended): `LinkToTransaction` is an unconditional update keyed on
`upload_id` alone: whenever a record matches the uploadID — regardless of
whether its `transactionID` is already set — the write succeeds and leaves
the matched record with the new `transactionID`, status `completed` and
`completedAt` set; the at-most-once guard lives only in the coordinator's
prior read. -/
theorem linkToTransaction_unconditional (l : List UploadRecord) (u : String)
    (tx now : Nat) (r : UploadRecord) (h : getByUploadID l u = some r) :
    LinkToTransaction l u tx now = Except.ok (linkLedger l u tx now)
    ∧ getByUploadID (linkLedger l u tx now) u
        = some { r with transactionID := some tx,
                        status := UploadStatus.completed,
                        completedAt := some now } := by
  rcases getByUploadID_mem h with ⟨-, hru⟩
  constructor
  · unfold LinkToTransaction
    rw [if_pos (getByUploadID_any h)]
  · have hmap := getByUploadID_map l u
      (fun x => if x.uploadID = u then
        { x with transactionID := some tx, status := UploadStatus.completed,
                 completedAt := some now } else x)
      (by intro x; by_cases hx : x.uploadID = u <;> simp [hx])
    unfold linkLedger
    rw [hmap, h]
    simp [hru]

/-- C2 amended-claim witness: applied to a record that is already linked to
transaction 7 — the conditions still hold, showing the write is not guarded
by the nullity of `transactionID`. -/
theorem linkToTransaction_unconditional_witness :
    LinkToTransaction [⟨1, "w", "staging/b", "image/png", 10,
        UploadStatus.completed, 0, 0, some 3, some 7⟩] "w" 11 60
      = Except.ok (linkLedger [⟨1, "w", "staging/b", "image/png", 10,
          UploadStatus.completed, 0, 0, some 3, some 7⟩] "w" 11 60)
    ∧ getByUploadID (linkLedger [⟨1, "w", "staging/b", "image/png", 10,
          UploadStatus.completed, 0, 0, some 3, some 7⟩] "w" 11 60) "w"
        = some ⟨1, "w", "staging/b", "image/png", 10, UploadStatus.completed,
            0, 0, some 60, some 11⟩ :=
  linkToTransaction_unconditional _ "w" 11 60
    ⟨1, "w", "staging/b", "image/png", 10, UploadStatus.completed, 0, 0,
      some 3, some 7⟩ (by decide)

/-! ## C10: `GetUploadStatus` is read-only on non-pending records -/

/-- C10: for a record whose status is not `pending`, `GetUploadStatus`
performs no store existence check and no ledger write (the world is returned
unchanged and the trace is the single ledger read), and the returned view
reproduces the stored record's fields unchanged. -/
theorem getUploadStatus_nonpending_readonly (w : World) (f : GFaults)
    (u : String) (now : Nat) (r : UploadRecord)
    (hget : getByUploadID w.ledger u = some r)
    (hnp : r.status ≠ UploadStatus.pending) :
    GetUploadStatus w f u now
      = ⟨Except.ok (mkStatusResponse r), w, [Event.ledgerGet u]⟩
    ∧ mkStatusResponse r
      = ⟨r.uploadID, r.status, r.s3Key, r.contentType, r.fileSize,
          r.createdAt, r.completedAt⟩ := by
  constructor
  · simp [GetUploadStatus, hget, hnp]
  · rfl

/-- C10 witness: a concrete `completed` record. -/
theorem getUploadStatus_nonpending_readonly_witness :
    GetUploadStatus ⟨[⟨1, "c", "staging/c", "image/png", 10,
        UploadStatus.completed, 0, 0, some 4, some 8⟩], ["staging/c"]⟩
        ⟨false, false⟩ "c" 99
      = ⟨Except.ok (mkStatusResponse ⟨1, "c", "staging/c", "image/png", 10,
          UploadStatus.completed, 0, 0, some 4, some 8⟩),
          ⟨[⟨1, "c", "staging/c", "image/png", 10, UploadStatus.completed, 0,
            0, some 4, some 8⟩], ["staging/c"]⟩, [Event.ledgerGet "c"]⟩
    ∧ mkStatusResponse (⟨1, "c", "staging/c", "image/png", 10,
        UploadStatus.completed, 0, 0, some 4, some 8⟩ : UploadRecord)
      = ⟨"c", UploadStatus.completed, "staging/c", "image/png", 10, 0, some 4⟩ :=
  getUploadStatus_nonpending_readonly _ ⟨false, false⟩ "c" 99
    ⟨1, "c", "staging/c", "image/png", 10, UploadStatus.completed, 0, 0,
      some 4, some 8⟩ (by decide) (by decide)

/-! ## C4: opportunistic completion in `GetUploadStatus` -/

/-- C4 counterexample: a pending record whose staging object exists, with the
persist of the `completed` transition failing — the call still succeeds, but
the returned view reports `pending`, not `completed` (the local record is
only updated in the branch where the persist succeeded). -/
theorem getUploadStatus_persist_failure_cex :
    (⟨1, "t", "staging/a", "image/png", 10, UploadStatus.pending, 0, 0,
        none, none⟩ : UploadRecord).status = UploadStatus.pending
    ∧ "staging/a" ∈ (⟨[⟨1, "t", "staging/a", "image/png", 10,
        UploadStatus.pending, 0, 0, none, none⟩], ["staging/a"]⟩ : World).store
    ∧ (GetUploadStatus ⟨[⟨1, "t", "staging/a", "image/png", 10,
        UploadStatus.pending, 0, 0, none, none⟩], ["staging/a"]⟩
        ⟨false, true⟩ "t" 7).result
      = Except.ok ⟨"t", UploadStatus.pending, "staging/a", "image/png", 10, 0, none⟩
    ∧ (⟨"t", UploadStatus.pending, "staging/a", "image/png", 10, 0, none⟩ :
        UploadStatusResponse).status ≠ UploadStatus.completed := by
  refine ⟨rfl, by decide, by decide, by decide⟩

/-- C4 (amended): for a pending record whose staging object exists (and the
existence check succeeds), `GetUploadStatus` persists the `pending →
completed` transition and reports `completed`; when persisting the transition
fails, the call still succeeds (the failure is only logged) but the returned
view reports the stored status `pending`, not the observed completion. -/
theorem getUploadStatus_pending_object_present (w : World) (f : GFaults)
    (u : String) (now : Nat) (r : UploadRecord)
    (hget : getByUploadID w.ledger u = some r)
    (hp : r.status = UploadStatus.pending)
    (hex : f.existsErr = false)
    (hin : r.s3Key ∈ w.store) :
    (f.updateErr = false →
      GetUploadStatus w f u now
        = ⟨Except.ok (mkStatusResponse { r with status := UploadStatus.completed }),
            ⟨updateStatusLedger w.ledger u UploadStatus.completed now, w.store⟩,
            [Event.ledgerGet u, Event.s3Exists r.s3Key,
             Event.ledgerUpdate u UploadStatus.completed]⟩)
    ∧ (f.updateErr = true →
      GetUploadStatus w f u now
        = ⟨Except.ok (mkStatusResponse r), w,
            [Event.ledgerGet u, Event.s3Exists r.s3Key,
             Event.ledgerUpdate u UploadStatus.completed]⟩
      ∧ (mkStatusResponse r).status = UploadStatus.pending) := by
  constructor
  · intro hu
    simp [GetUploadStatus, hget, hp, hex, hin, hu, UpdateStatus,
      getByUploadID_any hget]
  · intro hu
    refine ⟨?_, by simp [mkStatusResponse, hp]⟩
    simp [GetUploadStatus, hget, hp, hex, hin, hu]

/-- C4 amended-claim witness: the persist-success side at a concrete world. -/
theorem getUploadStatus_pending_object_present_witness :
    GetUploadStatus ⟨[⟨1, "t", "staging/a", "image/png", 10,
        UploadStatus.pending, 0, 0, none, none⟩], ["staging/a"]⟩
        ⟨false, false⟩ "t" 7
      = ⟨Except.ok (mkStatusResponse { (⟨1, "t", "staging/a", "image/png", 10,
            UploadStatus.pending, 0, 0, none, none⟩ : UploadRecord) with
            status := UploadStatus.completed }),
          ⟨updateStatusLedger [⟨1, "t", "staging/a", "image/png", 10,
            UploadStatus.pending, 0, 0, none, none⟩] "t"
            UploadStatus.completed 7, ["staging/a"]⟩,
          [Event.ledgerGet "t", Event.s3Exists "staging/a",
           Event.ledgerUpdate "t" UploadStatus.completed]⟩ :=
  (getUploadStatus_pending_object_present
    ⟨[⟨1, "t", "staging/a", "image/png", 10, UploadStatus.pending, 0, 0,
      none, none⟩], ["staging/a"]⟩ ⟨false, false⟩ "t" 7
    ⟨1, "t", "staging/a", "image/png", 10, UploadStatus.pending, 0, 0,
      none, none⟩ (by decide) rfl rfl (by decide)).1 rfl

/-! ## C3: failures before the final ledger write leave the ledger untouched -/

/-- C3: whenever `VerifyAndLinkUpload` fails with any error other than the
final write's own `persistenceErr` — no matching record, already linked,
staging object absent, store connectivity failure on the existence check, or
a failed copy — the ledger is returned unchanged and no linking write was
even attempted (no `ledgerLink` event is in the trace), so the record keeps
its status, link and completion time and a pending record stays pending,
safe to retry. -/
theorem verifyAndLink_early_failure_no_ledger_write (w : World) (f : VFaults)
    (u : String) (tx now : Nat) (e : SvcErr)
    (h : (VerifyAndLinkUpload w f u tx now).result = Except.error e)
    (he : e ≠ SvcErr.persistenceErr) :
    (VerifyAndLinkUpload w f u tx now).world.ledger = w.ledger
    ∧ (∀ tx2 : Nat, Event.ledgerLink u tx2 ∉ (VerifyAndLinkUpload w f u tx now).trace)
    ∧ (∀ st : UploadStatus,
        Event.ledgerUpdate u st ∉ (VerifyAndLinkUpload w f u tx now).trace) := by
  by_cases h0 : u = ""
  · simp [VerifyAndLinkUpload, h0] at h
  · cases hget : getByUploadID w.ledger u with
    | none => simp [VerifyAndLinkUpload, h0, hget]
    | some r =>
      by_cases h1 : r.transactionID = none
      · by_cases h2 : f.existsErr
        · simp [VerifyAndLinkUpload, h0, hget, h1, h2]
        · by_cases h3 : r.s3Key ∈ w.store
          · by_cases h4 : f.copyErr
            · simp [VerifyAndLinkUpload, h0, hget, h1, h2, h3, h4]
            · by_cases h5 : f.linkErr
              · exfalso
                apply he
                have := h
                simp [VerifyAndLinkUpload, h0, hget, h1, h2, h3, h4, h5] at this
                exact this.symm
              · cases hlink : LinkToTransaction w.ledger u tx now with
                | error err =>
                  exfalso
                  have hany := getByUploadID_any hget
                  simp [LinkToTransaction, hany] at hlink
                | ok l2 =>
                  exfalso
                  have := h
                  simp [VerifyAndLinkUpload, h0, hget, h1, h2, h3, h4, h5,
                    hlink] at this
          · simp [VerifyAndLinkUpload, h0, hget, h1, h2, h3]
      · simp [VerifyAndLinkUpload, h0, hget, h1]

/-- C3 witness: a token whose staging object is absent from the store — the
call fails with the object-not-found error and the ledger is unchanged. -/
theorem verifyAndLink_early_failure_no_ledger_write_witness :
    (VerifyAndLinkUpload ⟨[⟨1, "t", "staging/a", "image/png", 10,
        UploadStatus.pending, 0, 0, none, none⟩], []⟩
        ⟨false, false, false, false⟩ "t" 5 9).world.ledger
      = (⟨[⟨1, "t", "staging/a", "image/png", 10, UploadStatus.pending, 0, 0,
          none, none⟩], []⟩ : World).ledger
    ∧ (∀ tx2 : Nat, Event.ledgerLink "t" tx2
        ∉ (VerifyAndLinkUpload ⟨[⟨1, "t", "staging/a", "image/png", 10,
            UploadStatus.pending, 0, 0, none, none⟩], []⟩
            ⟨false, false, false, false⟩ "t" 5 9).trace)
    ∧ (∀ st : UploadStatus, Event.ledgerUpdate "t" st
        ∉ (VerifyAndLinkUpload ⟨[⟨1, "t", "staging/a", "image/png", 10,
            UploadStatus.pending, 0, 0, none, none⟩], []⟩
            ⟨false, false, false, false⟩ "t" 5 9).trace) :=
  verifyAndLink_early_failure_no_ledger_write
    ⟨[⟨1, "t", "staging/a", "image/png", 10, UploadStatus.pending, 0, 0,
      none, none⟩], []⟩ ⟨false, false, false, false⟩ "t" 5 9
    SvcErr.objectNotFound (by decide) (by decide)

/-! ## C1: first link succeeds with the rewritten key, second conflicts -/

/-- C1: for a token whose record is unlinked and whose staging object exists
in the store (and the store calls and linking write succeed), the first
`VerifyAndLinkUpload` succeeds and returns the record's staging key with its
`staging/` prefix rewritten to `transactions/` and the tail unchanged; a
second `VerifyAndLinkUpload` on the same token — under any fault assignment —
fails with the conflict error. -/
theorem verifyAndLink_promote_then_conflict (w : World) (f1 : VFaults)
    (tok : String) (tx1 now1 : Nat) (r : UploadRecord) (tail : String)
    (htok : tok ≠ "")
    (hget : getByUploadID w.ledger tok = some r)
    (hunlinked : r.transactionID = none)
    (hkey : r.s3Key = "staging/" ++ tail)
    (hstore : r.s3Key ∈ w.store)
    (hex : f1.existsErr = false) (hcp : f1.copyErr = false)
    (hlk : f1.linkErr = false) :
    (VerifyAndLinkUpload w f1 tok tx1 now1).result
      = Except.ok ("transactions/" ++ tail)
    ∧ ∀ (f2 : VFaults) (tx2 now2 : Nat),
        (VerifyAndLinkUpload (VerifyAndLinkUpload w f1 tok tx1 now1).world
            f2 tok tx2 now2).result
          = Except.error SvcErr.conflict := by
  have hany := getByUploadID_any hget
  have hlink : LinkToTransaction w.ledger tok tx1 now1
      = Except.ok (linkLedger w.ledger tok tx1 now1) := by
    unfold LinkToTransaction
    rw [if_pos hany]
  have hpk : goReplaceOnce r.s3Key "staging/" "transactions/"
      = "transactions/" ++ tail := by
    rw [hkey]
    exact goReplaceOnce_staging tail
  have hfull : VerifyAndLinkUpload w f1 tok tx1 now1
      = ⟨Except.ok ("transactions/" ++ tail),
          ⟨linkLedger w.ledger tok tx1 now1,
            deleteEffect (("transactions/" ++ tail) :: w.store) f1.deleteErr
              r.s3Key⟩,
          [Event.ledgerGet tok, Event.s3Exists r.s3Key,
           Event.s3Copy r.s3Key ("transactions/" ++ tail),
           Event.s3Delete r.s3Key, Event.ledgerLink tok tx1]⟩ := by
    simp [VerifyAndLinkUpload, htok, hget, hunlinked, hex, hstore, hcp, hlk,
      hlink, hpk]
  constructor
  · rw [hfull]
  · intro f2 tx2 now2
    rw [hfull]
    have hru := (getByUploadID_mem hget).2
    have hget2 : getByUploadID (linkLedger w.ledger tok tx1 now1) tok
        = some { r with transactionID := some tx1,
                        status := UploadStatus.completed,
                        completedAt := some now1 } := by
      have hmap := getByUploadID_map w.ledger tok
        (fun x => if x.uploadID = tok then
          { x with transactionID := some tx1, status := UploadStatus.completed,
                   completedAt := some now1 } else x)
        (by intro x; by_cases hx : x.uploadID = tok <;> simp [hx])
      unfold linkLedger
      rw [hmap, hget]
      simp [hru]
    simp [VerifyAndLinkUpload, htok, hget2]

/-- C1 witness: a concrete one-record world with the staging object present;
the first call returns `transactions/x.png`, the second fails with the
conflict error. -/
theorem verifyAndLink_promote_then_conflict_witness :
    (VerifyAndLinkUpload ⟨[⟨1, "tok", "staging/x.png", "image/png", 10,
        UploadStatus.pending, 0, 0, none, none⟩], ["staging/x.png"]⟩
        ⟨false, false, false, false⟩ "tok" 5 9).result
      = Except.ok ("transactions/" ++ "x.png")
    ∧ (VerifyAndLinkUpload
        (VerifyAndLinkUpload ⟨[⟨1, "tok", "staging/x.png", "image/png", 10,
          UploadStatus.pending, 0, 0, none, none⟩], ["staging/x.png"]⟩
          ⟨false, false, false, false⟩ "tok" 5 9).world
        ⟨false, false, false, false⟩ "tok" 6 10).result
      = Except.error SvcErr.conflict := by
  have h := verifyAndLink_promote_then_conflict
    ⟨[⟨1, "tok", "staging/x.png", "image/png", 10, UploadStatus.pending, 0, 0,
      none, none⟩], ["staging/x.png"]⟩ ⟨false, false, false, false⟩
    "tok" 5 9
    ⟨1, "tok", "staging/x.png", "image/png", 10, UploadStatus.pending, 0, 0,
      none, none⟩ "x.png"
    (by decide) (by decide) rfl (by decide) (by decide) rfl rfl rfl
  exact ⟨h.1, h.2 ⟨false, false, false, false⟩ 6 10⟩

/-! ## C5: operation ordering inside `VerifyAndLinkUpload` -/

theorem trans_ne_staging (tail : String) :
    ("transactions/" ++ tail) ≠ ("staging/" ++ tail) := by
  intro he
  have hd : ('t' : Char) :: ("ransactions/".data ++ tail.data)
      = 's' :: ("taging/".data ++ tail.data) := congrArg String.data he
  injection hd with h1 _
  exact absurd h1 (by decide)

theorem mem_deleteEffect_of_ne (s : List String) (b : Bool) (key pk : String)
    (h : pk ≠ key) : pk ∈ deleteEffect (pk :: s) b key := by
  unfold deleteEffect
  split_ifs <;> simp [h]

/-- C5: within one `VerifyAndLinkUpload` invocation the issued calls are
always an in-order prefix of ledger-read, existence check, copy, delete,
linking write; a copy is only issued after the existence check succeeded and
returned `true`, delete and the linking write are only issued after the copy
succeeded, and (for a record whose key lies under the staging prefix) the
object is never left in zero locations: whenever the staging object was
present initially, the final store still holds the staging key or the
permanent key. -/
theorem verifyAndLink_ordering (w : World) (f : VFaults) (u : String)
    (tx now : Nat) (r : UploadRecord)
    (hget : getByUploadID w.ledger u = some r) :
    (VerifyAndLinkUpload w f u tx now).trace
      <+: [Event.ledgerGet u, Event.s3Exists r.s3Key,
           Event.s3Copy r.s3Key (goReplaceOnce r.s3Key "staging/" "transactions/"),
           Event.s3Delete r.s3Key, Event.ledgerLink u tx]
    ∧ (Event.s3Copy r.s3Key (goReplaceOnce r.s3Key "staging/" "transactions/")
          ∈ (VerifyAndLinkUpload w f u tx now).trace
        → f.existsErr = false ∧ r.s3Key ∈ w.store)
    ∧ ((Event.s3Delete r.s3Key ∈ (VerifyAndLinkUpload w f u tx now).trace
        ∨ Event.ledgerLink u tx ∈ (VerifyAndLinkUpload w f u tx now).trace)
        → f.copyErr = false
          ∧ Event.s3Copy r.s3Key (goReplaceOnce r.s3Key "staging/" "transactions/")
              ∈ (VerifyAndLinkUpload w f u tx now).trace)
    ∧ (∀ tail : String, r.s3Key = "staging/" ++ tail → r.s3Key ∈ w.store →
        r.s3Key ∈ (VerifyAndLinkUpload w f u tx now).world.store
        ∨ goReplaceOnce r.s3Key "staging/" "transactions/"
            ∈ (VerifyAndLinkUpload w f u tx now).world.store) := by
  by_cases h0 : u = ""
  · have ht : VerifyAndLinkUpload w f u tx now = ⟨Except.ok "", w, []⟩ := by
      simp [VerifyAndLinkUpload, h0]
    rw [ht]
    exact ⟨List.nil_prefix, by simp, by simp, fun tail hk hm => Or.inl hm⟩
  · by_cases h1 : r.transactionID = none
    · by_cases h2 : f.existsErr = true
      · have ht : VerifyAndLinkUpload w f u tx now
            = ⟨Except.error SvcErr.storeErr, w,
                [Event.ledgerGet u, Event.s3Exists r.s3Key]⟩ := by
          simp [VerifyAndLinkUpload, h0, hget, h1, h2]
        rw [ht]
        exact ⟨⟨_, rfl⟩, by simp, by simp, fun tail hk hm => Or.inl hm⟩
      · by_cases h3 : r.s3Key ∈ w.store
        · by_cases h4 : f.copyErr = true
          · have ht : VerifyAndLinkUpload w f u tx now
                = ⟨Except.error SvcErr.promotionErr, w,
                    [Event.ledgerGet u, Event.s3Exists r.s3Key,
                     Event.s3Copy r.s3Key
                       (goReplaceOnce r.s3Key "staging/" "transactions/")]⟩ := by
              simp [VerifyAndLinkUpload, h0, hget, h1, h2, h3, h4]
            rw [ht]
            refine ⟨⟨_, rfl⟩, fun _ => ⟨by simp [h2], h3⟩, ?_, fun tail hk hm => Or.inl hm⟩
            intro hmem
            simp at hmem
          · have hlink : LinkToTransaction w.ledger u tx now
                = Except.ok (linkLedger w.ledger u tx now) := by
              unfold LinkToTransaction
              rw [if_pos (getByUploadID_any hget)]
            have hstore2 : ∀ tail : String, r.s3Key = "staging/" ++ tail →
                goReplaceOnce r.s3Key "staging/" "transactions/"
                  ∈ deleteEffect
                      (goReplaceOnce r.s3Key "staging/" "transactions/" :: w.store)
                      f.deleteErr r.s3Key := by
              intro tail hk
              apply mem_deleteEffect_of_ne
              rw [hk, goReplaceOnce_staging]
              exact trans_ne_staging tail
            by_cases h5 : f.linkErr = true
            · have ht : VerifyAndLinkUpload w f u tx now
                  = ⟨Except.error SvcErr.persistenceErr,
                      ⟨w.ledger,
                        deleteEffect
                          (goReplaceOnce r.s3Key "staging/" "transactions/"
                            :: w.store) f.deleteErr r.s3Key⟩,
                      [Event.ledgerGet u, Event.s3Exists r.s3Key,
                       Event.s3Copy r.s3Key
                         (goReplaceOnce r.s3Key "staging/" "transactions/"),
                       Event.s3Delete r.s3Key, Event.ledgerLink u tx]⟩ := by
                simp [VerifyAndLinkUpload, h0, hget, h1, h2, h3, h4, h5]
              rw [ht]
              exact ⟨⟨[], by simp⟩, fun _ => ⟨by simp [h2], h3⟩,
                fun _ => ⟨by simp [h4], by simp⟩,
                fun tail hk hm => Or.inr (hstore2 tail hk)⟩
            · have ht : VerifyAndLinkUpload w f u tx now
                  = ⟨Except.ok (goReplaceOnce r.s3Key "staging/" "transactions/"),
                      ⟨linkLedger w.ledger u tx now,
                        deleteEffect
                          (goReplaceOnce r.s3Key "staging/" "transactions/"
                            :: w.store) f.deleteErr r.s3Key⟩,
                      [Event.ledgerGet u, Event.s3Exists r.s3Key,
                       Event.s3Copy r.s3Key
                         (goReplaceOnce r.s3Key "staging/" "transactions/"),
                       Event.s3Delete r.s3Key, Event.ledgerLink u tx]⟩ := by
                simp [VerifyAndLinkUpload, h0, hget, h1, h2, h3, h4, h5, hlink]
              rw [ht]
              exact ⟨⟨[], by simp⟩, fun _ => ⟨by simp [h2], h3⟩,
                fun _ => ⟨by simp [h4], by simp⟩,
                fun tail hk hm => Or.inr (hstore2 tail hk)⟩
        · have ht : VerifyAndLinkUpload w f u tx now
              = ⟨Except.error SvcErr.objectNotFound, w,
                  [Event.ledgerGet u, Event.s3Exists r.s3Key]⟩ := by
            simp [VerifyAndLinkUpload, h0, hget, h1, h2, h3]
          rw [ht]
          exact ⟨⟨_, rfl⟩, by simp, by simp, fun tail hk hm => Or.inl hm⟩
    · have ht : VerifyAndLinkUpload w f u tx now
          = ⟨Except.error SvcErr.conflict, w, [Event.ledgerGet u]⟩ := by
        simp [VerifyAndLinkUpload, h0, hget, h1]
      rw [ht]
      exact ⟨⟨_, rfl⟩, by simp, by simp, fun tail hk hm => Or.inl hm⟩

/-- C5 witness: the fully successful run at a concrete world (trace equals
the whole canonical sequence). -/
theorem verifyAndLink_ordering_witness :
    (VerifyAndLinkUpload ⟨[⟨1, "t", "staging/y.png", "image/png", 10,
        UploadStatus.pending, 0, 0, none, none⟩], ["staging/y.png"]⟩
        ⟨false, false, false, false⟩ "t" 5 9).trace
      <+: [Event.ledgerGet "t", Event.s3Exists "staging/y.png",
           Event.s3Copy "staging/y.png"
             (goReplaceOnce "staging/y.png" "staging/" "transactions/"),
           Event.s3Delete "staging/y.png", Event.ledgerLink "t" 5]
    ∧ (Event.s3Copy "staging/y.png"
          (goReplaceOnce "staging/y.png" "staging/" "transactions/")
          ∈ (VerifyAndLinkUpload ⟨[⟨1, "t", "staging/y.png", "image/png", 10,
              UploadStatus.pending, 0, 0, none, none⟩], ["staging/y.png"]⟩
              ⟨false, false, false, false⟩ "t" 5 9).trace
        → (⟨false, false, false, false⟩ : VFaults).existsErr = false
          ∧ "staging/y.png" ∈ (⟨[⟨1, "t", "staging/y.png", "image/png", 10,
              UploadStatus.pending, 0, 0, none, none⟩], ["staging/y.png"]⟩ :
              World).store)
    ∧ ((Event.s3Delete "staging/y.png"
          ∈ (VerifyAndLinkUpload ⟨[⟨1, "t", "staging/y.png", "image/png", 10,
              UploadStatus.pending, 0, 0, none, none⟩], ["staging/y.png"]⟩
              ⟨false, false, false, false⟩ "t" 5 9).trace
        ∨ Event.ledgerLink "t" 5
          ∈ (VerifyAndLinkUpload ⟨[⟨1, "t", "staging/y.png", "image/png", 10,
              UploadStatus.pending, 0, 0, none, none⟩], ["staging/y.png"]⟩
              ⟨false, false, false, false⟩ "t" 5 9).trace)
        → (⟨false, false, false, false⟩ : VFaults).copyErr = false
          ∧ Event.s3Copy "staging/y.png"
              (goReplaceOnce "staging/y.png" "staging/" "transactions/")
              ∈ (VerifyAndLinkUpload ⟨[⟨1, "t", "staging/y.png", "image/png",
                  10, UploadStatus.pending, 0, 0, none, none⟩],
                  ["staging/y.png"]⟩
                  ⟨false, false, false, false⟩ "t" 5 9).trace)
    ∧ (∀ tail : String, "staging/y.png" = "staging/" ++ tail →
        "staging/y.png" ∈ (["staging/y.png"] : List String) →
        "staging/y.png" ∈ (VerifyAndLinkUpload ⟨[⟨1, "t", "staging/y.png",
            "image/png", 10, UploadStatus.pending, 0, 0, none, none⟩],
            ["staging/y.png"]⟩ ⟨false, false, false, false⟩ "t" 5 9).world.store
        ∨ goReplaceOnce "staging/y.png" "staging/" "transactions/"
            ∈ (VerifyAndLinkUpload ⟨[⟨1, "t", "staging/y.png", "image/png", 10,
                UploadStatus.pending, 0, 0, none, none⟩], ["staging/y.png"]⟩
                ⟨false, false, false, false⟩ "t" 5 9).world.store) :=
  verifyAndLink_ordering ⟨[⟨1, "t", "staging/y.png", "image/png", 10,
      UploadStatus.pending, 0, 0, none, none⟩], ["staging/y.png"]⟩
    ⟨false, false, false, false⟩ "t" 5 9
    ⟨1, "t", "staging/y.png", "image/png", 10, UploadStatus.pending, 0, 0,
      none, none⟩ (by decide)

/-! ## Orphan-cleanup machinery -/

/-- Marking function describing the combined effect of the per-orphan
`UpdateStatus(expired)` writes: records whose uploadID is in `ids` end up
`expired`. -/
def expireMark (ids : List String) (r : UploadRecord) : UploadRecord :=
  if r.uploadID ∈ ids then { r with status := UploadStatus.expired } else r

theorem expireMark_uploadID (ids : List String) (r : UploadRecord) :
    (expireMark ids r).uploadID = r.uploadID := by
  unfold expireMark
  split <;> rfl

theorem map_expireMark_nil (l : List UploadRecord) :
    l.map (expireMark []) = l := by
  have h : ∀ r ∈ l, expireMark [] r = id r := by
    intro r _
    simp [expireMark]
  rw [List.map_congr_left h, List.map_id]

theorem expireMark_comp (u : String) (ids : List String) (r : UploadRecord) :
    expireMark ids (expireMark [u] r) = expireMark (u :: ids) r := by
  unfold expireMark
  by_cases h1 : r.uploadID = u <;> by_cases h2 : r.uploadID ∈ ids <;>
    simp [h1, h2]

theorem any_uploadID_map (l : List UploadRecord)
    (g : UploadRecord → UploadRecord)
    (hg : ∀ r, (g r).uploadID = r.uploadID) (u : String) :
    ((l.map g).any fun x => x.uploadID = u) = (l.any fun x => x.uploadID = u) := by
  induction l with
  | nil => rfl
  | cons x rest ih => simp [hg, ih]

theorem updateStatusLedger_expired (l : List UploadRecord) (u : String)
    (now : Nat) :
    updateStatusLedger l u UploadStatus.expired now = l.map (expireMark [u]) := by
  apply List.map_congr_left
  intro r _
  by_cases h : r.uploadID = u <;> simp [expireMark, h]

theorem cleanupStep_ledger (f : CFaults) (now : Nat)
    (acc : World × List Event) (o : UploadRecord) :
    (cleanupStep f now acc o).1.ledger
      = if f.updateErr o.uploadID then acc.1.ledger
        else if (acc.1.ledger.any fun x => x.uploadID = o.uploadID) then
          updateStatusLedger acc.1.ledger o.uploadID UploadStatus.expired now
        else acc.1.ledger := by
  simp only [cleanupStep, UpdateStatus]
  split_ifs <;> simp_all

theorem cleanupStep_trace (f : CFaults) (now : Nat)
    (acc : World × List Event) (o : UploadRecord) :
    (cleanupStep f now acc o).2
      = acc.2 ++ [Event.s3Delete o.s3Key,
          Event.ledgerUpdate o.uploadID UploadStatus.expired] := rfl

theorem cleanup_foldl_ledger (f : CFaults) (now : Nat) :
    ∀ (os : List UploadRecord) (p : World × List Event),
      (∀ o ∈ os, (p.1.ledger.any fun x => x.uploadID = o.uploadID) = true) →
      ((os.foldl (cleanupStep f now) p).1).ledger
        = p.1.ledger.map (expireMark
            ((os.filter fun o => ! f.updateErr o.uploadID).map
              fun o => o.uploadID)) := by
  intro os
  induction os with
  | nil =>
    intro p h
    simp [map_expireMark_nil]
  | cons o os ih =>
    intro p h
    rw [List.foldl_cons]
    by_cases hu : f.updateErr o.uploadID
    · have hstep : (cleanupStep f now p o).1.ledger = p.1.ledger := by
        rw [cleanupStep_ledger, if_pos hu]
      rw [ih (cleanupStep f now p o)
        (by intro o2 ho2; rw [hstep]; exact h o2 (List.mem_cons_of_mem _ ho2)),
        hstep]
      simp [hu]
    · have hany := h o (List.mem_cons_self _ _)
      have hstep : (cleanupStep f now p o).1.ledger
          = p.1.ledger.map (expireMark [o.uploadID]) := by
        rw [cleanupStep_ledger, if_neg hu, if_pos hany,
          updateStatusLedger_expired]
      rw [ih (cleanupStep f now p o)
        (by
          intro o2 ho2
          rw [hstep,
            any_uploadID_map _ _ (fun r => expireMark_uploadID [o.uploadID] r)]
          exact h o2 (List.mem_cons_of_mem _ ho2)),
        hstep, List.map_map]
      have hpt : (expireMark
          ((os.filter fun x => ! f.updateErr x.uploadID).map fun x => x.uploadID))
            ∘ expireMark [o.uploadID]
          = expireMark (o.uploadID
              :: (os.filter fun x => ! f.updateErr x.uploadID).map
                  fun x => x.uploadID) := by
        funext r
        exact expireMark_comp _ _ r
      rw [hpt]
      have hfil : ((o :: os).filter fun x => ! f.updateErr x.uploadID)
          = o :: (os.filter fun x => ! f.updateErr x.uploadID) := by
        simp [List.filter_cons, hu]
      rw [hfil]
      simp

theorem cleanup_foldl_trace (f : CFaults) (now : Nat) :
    ∀ (os : List UploadRecord) (p : World × List Event),
      ∃ suffix, (os.foldl (cleanupStep f now) p).2 = p.2 ++ suffix
        ∧ ∀ o ∈ os, Event.s3Delete o.s3Key ∈ suffix
            ∧ Event.ledgerUpdate o.uploadID UploadStatus.expired ∈ suffix := by
  intro os
  induction os with
  | nil =>
    intro p
    exact ⟨[], by simp, by simp⟩
  | cons o os ih =>
    intro p
    obtain ⟨suf, hsuf, hmem⟩ := ih (cleanupStep f now p o)
    refine ⟨[Event.s3Delete o.s3Key,
      Event.ledgerUpdate o.uploadID UploadStatus.expired] ++ suf, ?_, ?_⟩
    · rw [List.foldl_cons, hsuf, cleanupStep_trace, List.append_assoc]
    · intro o2 ho2
      rcases List.mem_cons.mp ho2 with heq | ho2
      · subst heq
        exact ⟨by simp, by simp⟩
      · exact ⟨List.mem_append_right _ (hmem o2 ho2).1,
          List.mem_append_right _ (hmem o2 ho2).2⟩

theorem mem_getOrphanedUploads (l : List UploadRecord) (hoursOld now : Nat)
    (r : UploadRecord) :
    r ∈ GetOrphanedUploads l hoursOld now
      ↔ r ∈ l ∧ r.status = UploadStatus.pending ∧ r.transactionID = none
         ∧ r.createdAt + hoursOld * 3600 < now := by
  simp [GetOrphanedUploads, List.mem_filter, and_assoc]

/-! ## C8: orphan reclamation -/

/-- C8 counterexample: `CleanupOrphanedUploads` does not return the count of
records considered — its returned value is the same (`ok ()`) for a run that
considered one orphan and for a run that considered two; the count is only
logged. -/
theorem cleanup_returns_no_count_cex :
    (CleanupOrphanedUploads ⟨[⟨1, "a", "staging/a", "image/png", 5,
        UploadStatus.pending, 0, 0, none, none⟩], []⟩
        ⟨false, fun _ => false, fun _ => false⟩ 90000).result
      = (CleanupOrphanedUploads ⟨[⟨1, "a", "staging/a", "image/png", 5,
          UploadStatus.pending, 0, 0, none, none⟩,
          ⟨2, "b", "staging/b", "image/png", 5, UploadStatus.pending, 0, 0,
            none, none⟩], []⟩
          ⟨false, fun _ => false, fun _ => false⟩ 90000).result
    ∧ (CleanupOrphanedUploads ⟨[⟨1, "a", "staging/a", "image/png", 5,
        UploadStatus.pending, 0, 0, none, none⟩], []⟩
        ⟨false, fun _ => false, fun _ => false⟩ 90000).loggedCount = some 1
    ∧ (CleanupOrphanedUploads ⟨[⟨1, "a", "staging/a", "image/png", 5,
        UploadStatus.pending, 0, 0, none, none⟩,
        ⟨2, "b", "staging/b", "image/png", 5, UploadStatus.pending, 0, 0,
          none, none⟩], []⟩
        ⟨false, fun _ => false, fun _ => false⟩ 90000).loggedCount = some 2 := by
  refine ⟨by decide, by decide, by decide⟩

/-- C8 (amended): with distinct uploadIDs in the ledger and the orphan query
succeeding, `CleanupOrphanedUploads` considers exactly the records that are
`pending`, unlinked, and older than the fixed 24-hour age; for each such
record it attempts the staging-store delete and the `expired` persist (both
events appear in the trace for every orphan, independent of any per-record
failure); a record's final state is `expired` exactly when its persist did
not fail, and records outside the orphan set are untouched; the call returns
plain success, and the count of records considered is only logged. -/
theorem cleanupOrphanedUploads_behavior (w : World) (f : CFaults) (now : Nat)
    (hnd : (w.ledger.map fun r => r.uploadID).Nodup)
    (hg : f.getErr = false) :
    (CleanupOrphanedUploads w f now).result = Except.ok ()
    ∧ (CleanupOrphanedUploads w f now).loggedCount
        = some (GetOrphanedUploads w.ledger 24 now).length
    ∧ (∀ r : UploadRecord, r ∈ GetOrphanedUploads w.ledger 24 now
        ↔ r ∈ w.ledger ∧ r.status = UploadStatus.pending
          ∧ r.transactionID = none ∧ r.createdAt + 24 * 3600 < now)
    ∧ (CleanupOrphanedUploads w f now).world.ledger
        = w.ledger.map (fun r =>
            if r ∈ GetOrphanedUploads w.ledger 24 now
                ∧ f.updateErr r.uploadID = false
            then { r with status := UploadStatus.expired } else r)
    ∧ (∀ o ∈ GetOrphanedUploads w.ledger 24 now,
        Event.s3Delete o.s3Key ∈ (CleanupOrphanedUploads w f now).trace
        ∧ Event.ledgerUpdate o.uploadID UploadStatus.expired
            ∈ (CleanupOrphanedUploads w f now).trace) := by
  have horph : ∀ o ∈ GetOrphanedUploads w.ledger 24 now, o ∈ w.ledger :=
    fun o ho => ((mem_getOrphanedUploads _ _ _ o).mp ho).1
  have hanyh : ∀ o ∈ GetOrphanedUploads w.ledger 24 now,
      ((w, ([Event.ledgerGetOrphans 24] : List Event)).1.ledger.any
        fun x => x.uploadID = o.uploadID) = true := by
    intro o ho
    exact List.any_eq_true.mpr ⟨o, horph o ho, by simp⟩
  refine ⟨by simp [CleanupOrphanedUploads, hg],
    by simp [CleanupOrphanedUploads, hg],
    fun r => mem_getOrphanedUploads _ _ _ r, ?_, ?_⟩
  · have hl : (CleanupOrphanedUploads w f now).world.ledger
        = ((GetOrphanedUploads w.ledger 24 now).foldl (cleanupStep f now)
            (w, [Event.ledgerGetOrphans 24])).1.ledger := by
      simp [CleanupOrphanedUploads, hg]
    rw [hl, cleanup_foldl_ledger f now _ (w, [Event.ledgerGetOrphans 24]) hanyh]
    apply List.map_congr_left
    intro r hr
    by_cases hcase : r ∈ GetOrphanedUploads w.ledger 24 now
        ∧ f.updateErr r.uploadID = false
    · rw [if_pos hcase]
      unfold expireMark
      rw [if_pos (List.mem_map.mpr ⟨r,
        List.mem_filter.mpr ⟨hcase.1, by simp [hcase.2]⟩, rfl⟩)]
    · rw [if_neg hcase]
      unfold expireMark
      rw [if_neg ?hni]
      case hni =>
        intro hin
        obtain ⟨o, homem, heq⟩ := List.mem_map.mp hin
        obtain ⟨ho, hflag⟩ := List.mem_filter.mp homem
        have hor : o = r :=
          List.inj_on_of_nodup_map hnd (horph o ho) hr heq
        subst hor
        exact hcase ⟨ho, by simpa using hflag⟩
  · intro o ho
    obtain ⟨suf, hsuf, hmem⟩ := cleanup_foldl_trace f now
      (GetOrphanedUploads w.ledger 24 now) (w, [Event.ledgerGetOrphans 24])
    have htr : (CleanupOrphanedUploads w f now).trace
        = [Event.ledgerGetOrphans 24] ++ suf := by
      simp [CleanupOrphanedUploads, hg]
      exact hsuf
    rw [htr]
    exact ⟨List.mem_append_right _ (hmem o ho).1,
      List.mem_append_right _ (hmem o ho).2⟩

/-- C8 witness: a ledger with one genuine orphan (25 hours old) and one fresh
record (1 hour old), no injected failures. -/
theorem cleanupOrphanedUploads_behavior_witness :
    (CleanupOrphanedUploads ⟨[⟨1, "old", "staging/old", "image/png", 5,
        UploadStatus.pending, 0, 0, none, none⟩,
        ⟨2, "new", "staging/new", "image/png", 5, UploadStatus.pending, 0,
          86400, none, none⟩], ["staging/old", "staging/new"]⟩
        ⟨false, fun _ => false, fun _ => false⟩ 90000).result = Except.ok ()
    ∧ (CleanupOrphanedUploads ⟨[⟨1, "old", "staging/old", "image/png", 5,
        UploadStatus.pending, 0, 0, none, none⟩,
        ⟨2, "new", "staging/new", "image/png", 5, UploadStatus.pending, 0,
          86400, none, none⟩], ["staging/old", "staging/new"]⟩
        ⟨false, fun _ => false, fun _ => false⟩ 90000).loggedCount
      = some (GetOrphanedUploads [⟨1, "old", "staging/old", "image/png", 5,
          UploadStatus.pending, 0, 0, none, none⟩,
          ⟨2, "new", "staging/new", "image/png", 5, UploadStatus.pending, 0,
            86400, none, none⟩] 24 90000).length
    ∧ (∀ r : UploadRecord, r ∈ GetOrphanedUploads [⟨1, "old", "staging/old",
        "image/png", 5, UploadStatus.pending, 0, 0, none, none⟩,
        ⟨2, "new", "staging/new", "image/png", 5, UploadStatus.pending, 0,
          86400, none, none⟩] 24 90000
        ↔ r ∈ [⟨1, "old", "staging/old", "image/png", 5,
            UploadStatus.pending, 0, 0, none, none⟩,
            ⟨2, "new", "staging/new", "image/png", 5, UploadStatus.pending, 0,
              86400, none, none⟩]
          ∧ r.status = UploadStatus.pending
          ∧ r.transactionID = none ∧ r.createdAt + 24 * 3600 < 90000)
    ∧ (CleanupOrphanedUploads ⟨[⟨1, "old", "staging/old", "image/png", 5,
        UploadStatus.pending, 0, 0, none, none⟩,
        ⟨2, "new", "staging/new", "image/png", 5, UploadStatus.pending, 0,
          86400, none, none⟩], ["staging/old", "staging/new"]⟩
        ⟨false, fun _ => false, fun _ => false⟩ 90000).world.ledger
      = ([⟨1, "old", "staging/old", "image/png", 5, UploadStatus.pending, 0,
          0, none, none⟩,
          ⟨2, "new", "staging/new", "image/png", 5, UploadStatus.pending, 0,
            86400, none, none⟩] : List UploadRecord).map (fun r =>
            if r ∈ GetOrphanedUploads [⟨1, "old", "staging/old", "image/png",
                5, UploadStatus.pending, 0, 0, none, none⟩,
                ⟨2, "new", "staging/new", "image/png", 5,
                  UploadStatus.pending, 0, 86400, none, none⟩] 24 90000
                ∧ (fun _ => false : String → Bool) r.uploadID = false
            then { r with status := UploadStatus.expired } else r)
    ∧ (∀ o ∈ GetOrphanedUploads [⟨1, "old", "staging/old", "image/png", 5,
        UploadStatus.pending, 0, 0, none, none⟩,
        ⟨2, "new", "staging/new", "image/png", 5, UploadStatus.pending, 0,
          86400, none, none⟩] 24 90000,
        Event.s3Delete o.s3Key ∈ (CleanupOrphanedUploads ⟨[⟨1, "old",
            "staging/old", "image/png", 5, UploadStatus.pending, 0, 0, none,
            none⟩,
            ⟨2, "new", "staging/new", "image/png", 5, UploadStatus.pending,
              0, 86400, none, none⟩], ["staging/old", "staging/new"]⟩
            ⟨false, fun _ => false, fun _ => false⟩ 90000).trace
        ∧ Event.ledgerUpdate o.uploadID UploadStatus.expired
            ∈ (CleanupOrphanedUploads ⟨[⟨1, "old", "staging/old", "image/png",
                5, UploadStatus.pending, 0, 0, none, none⟩,
                ⟨2, "new", "staging/new", "image/png", 5,
                  UploadStatus.pending, 0, 86400, none, none⟩],
                ["staging/old", "staging/new"]⟩
                ⟨false, fun _ => false, fun _ => false⟩ 90000).trace) :=
  cleanupOrphanedUploads_behavior
    ⟨[⟨1, "old", "staging/old", "image/png", 5, UploadStatus.pending, 0, 0,
      none, none⟩,
      ⟨2, "new", "staging/new", "image/png", 5, UploadStatus.pending, 0,
        86400, none, none⟩], ["staging/old", "staging/new"]⟩
    ⟨false, fun _ => false, fun _ => false⟩ 90000 (by decide) rfl

/-! ## C9: status transitions -/

theorem getUploadStatus_ledger_shape (w : World) (f : GFaults) (u : String)
    (now : Nat) :
    (GetUploadStatus w f u now).world.ledger = w.ledger
    ∨ ∃ r, getByUploadID w.ledger u = some r
        ∧ r.status = UploadStatus.pending
        ∧ (GetUploadStatus w f u now).world.ledger
            = updateStatusLedger w.ledger u UploadStatus.completed now := by
  cases hget : getByUploadID w.ledger u with
  | none =>
    left
    simp [GetUploadStatus, hget]
  | some r =>
    by_cases hp : r.status = UploadStatus.pending
    · by_cases he : f.existsErr = true
      · left
        simp [GetUploadStatus, hget, hp, he]
      · by_cases hin : r.s3Key ∈ w.store
        · by_cases hu : f.updateErr = true
          · left
            simp [GetUploadStatus, hget, hp, he, hin, hu]
          · right
            refine ⟨r, rfl, hp, ?_⟩
            simp [GetUploadStatus, hget, hp, he, hin, hu, UpdateStatus,
              getByUploadID_any hget]
        · left
          simp [GetUploadStatus, hget, hp, he, hin]
    · left
      simp [GetUploadStatus, hget, hp]

theorem verifyAndLink_ledger_shape (w : World) (f : VFaults) (u : String)
    (tx now : Nat) :
    (VerifyAndLinkUpload w f u tx now).world.ledger = w.ledger
    ∨ ∃ r, getByUploadID w.ledger u = some r ∧ r.transactionID = none
        ∧ (VerifyAndLinkUpload w f u tx now).world.ledger
            = linkLedger w.ledger u tx now := by
  by_cases h0 : u = ""
  · left
    simp [VerifyAndLinkUpload, h0]
  · cases hget : getByUploadID w.ledger u with
    | none =>
      left
      simp [VerifyAndLinkUpload, h0, hget]
    | some r =>
      by_cases h1 : r.transactionID = none
      · by_cases h2 : f.existsErr = true
        · left
          simp [VerifyAndLinkUpload, h0, hget, h1, h2]
        · by_cases h3 : r.s3Key ∈ w.store
          · by_cases h4 : f.copyErr = true
            · left
              simp [VerifyAndLinkUpload, h0, hget, h1, h2, h3, h4]
            · by_cases h5 : f.linkErr = true
              · left
                simp [VerifyAndLinkUpload, h0, hget, h1, h2, h3, h4, h5]
              · right
                have hlink : LinkToTransaction w.ledger u tx now
                    = Except.ok (linkLedger w.ledger u tx now) := by
                  unfold LinkToTransaction
                  rw [if_pos (getByUploadID_any hget)]
                refine ⟨r, rfl, h1, ?_⟩
                simp [VerifyAndLinkUpload, h0, hget, h1, h2, h3, h4, h5,
                  hlink]
          · left
            simp [VerifyAndLinkUpload, h0, hget, h1, h2, h3]
      · left
        simp [VerifyAndLinkUpload, h0, hget, h1]

/-- C9 counterexample: a record with status `expired`, unlinked, whose
staging object survived (e.g. because reclamation's delete failed) — a
successful `VerifyAndLinkUpload` changes its status to `completed`, a status
change starting from a record that is not `pending`. -/
theorem status_expired_to_completed_cex :
    (⟨3, "tk", "staging/z", "image/png", 5, UploadStatus.expired, 0, 0, none,
        none⟩ : UploadRecord).status = UploadStatus.expired
    ∧ (VerifyAndLinkUpload ⟨[⟨3, "tk", "staging/z", "image/png", 5,
        UploadStatus.expired, 0, 0, none, none⟩], ["staging/z"]⟩
        ⟨false, false, false, false⟩ "tk" 9 50).world.ledger
      = [⟨3, "tk", "staging/z", "image/png", 5, UploadStatus.completed, 0, 0,
          some 50, some 9⟩]
    ∧ UploadStatus.expired ≠ UploadStatus.pending := by
  refine ⟨rfl, by decide, by decide⟩

/-- C9 (amended): on a ledger with distinct uploadIDs, every status change
performed by `GetUploadStatus` starts from `pending` and goes to `completed`,
and every status change performed by `CleanupOrphanedUploads` starts from
`pending` and goes to `expired`; `VerifyAndLinkUpload`'s write, however, is
guarded only by the record being unlinked, so its status changes start from
any unlinked record (pending, expired or failed) and go to `completed`.  In
particular every change sets `completed` or `expired`, so no record ever
moves back to `pending`, and a `completed` record never leaves `completed`. -/
theorem coordinator_status_transitions (w : World)
    (hnd : (w.ledger.map fun r => r.uploadID).Nodup) :
    (∀ (f : GFaults) (u : String) (now i : Nat)
        (hi : i < w.ledger.length)
        (hi2 : i < (GetUploadStatus w f u now).world.ledger.length),
        ((GetUploadStatus w f u now).world.ledger[i]).status
            = (w.ledger[i]).status
        ∨ ((w.ledger[i]).status = UploadStatus.pending
            ∧ ((GetUploadStatus w f u now).world.ledger[i]).status
                = UploadStatus.completed))
    ∧ (∀ (f : VFaults) (u : String) (tx now i : Nat)
        (hi : i < w.ledger.length)
        (hi2 : i < (VerifyAndLinkUpload w f u tx now).world.ledger.length),
        ((VerifyAndLinkUpload w f u tx now).world.ledger[i]).status
            = (w.ledger[i]).status
        ∨ ((w.ledger[i]).transactionID = none
            ∧ ((VerifyAndLinkUpload w f u tx now).world.ledger[i]).status
                = UploadStatus.completed))
    ∧ (∀ (f : CFaults) (now i : Nat)
        (hi : i < w.ledger.length)
        (hi2 : i < (CleanupOrphanedUploads w f now).world.ledger.length),
        ((CleanupOrphanedUploads w f now).world.ledger[i]).status
            = (w.ledger[i]).status
        ∨ ((w.ledger[i]).status = UploadStatus.pending
            ∧ ((CleanupOrphanedUploads w f now).world.ledger[i]).status
                = UploadStatus.expired)) := by
  refine ⟨?_, ?_, ?_⟩
  · intro f u now i hi hi2
    rcases getUploadStatus_ledger_shape w f u now with heq | ⟨r, hget, hp, heq⟩
    · left
      exact congrArg UploadRecord.status (List.getElem_of_eq heq hi2)
    · rw [List.getElem_of_eq heq hi2]
      simp only [updateStatusLedger, List.getElem_map]
      by_cases hru : (w.ledger[i]).uploadID = u
      · right
        refine ⟨?_, by simp [hru]⟩
        have hmem := getByUploadID_mem hget
        have hir : w.ledger[i] = r :=
          List.inj_on_of_nodup_map hnd (List.getElem_mem hi) hmem.1
            (by rw [hru, hmem.2])
        rw [hir]
        exact hp
      · left
        simp [hru]
  · intro f u tx now i hi hi2
    rcases verifyAndLink_ledger_shape w f u tx now with heq | ⟨r, hget, h1, heq⟩
    · left
      exact congrArg UploadRecord.status (List.getElem_of_eq heq hi2)
    · rw [List.getElem_of_eq heq hi2]
      simp only [linkLedger, List.getElem_map]
      by_cases hru : (w.ledger[i]).uploadID = u
      · right
        refine ⟨?_, by simp [hru]⟩
        have hmem := getByUploadID_mem hget
        have hir : w.ledger[i] = r :=
          List.inj_on_of_nodup_map hnd (List.getElem_mem hi) hmem.1
            (by rw [hru, hmem.2])
        rw [hir]
        exact h1
      · left
        simp [hru]
  · intro f now i hi hi2
    by_cases hgf : f.getErr = true
    · left
      have heq : (CleanupOrphanedUploads w f now).world.ledger = w.ledger := by
        simp [CleanupOrphanedUploads, hgf]
      exact congrArg UploadRecord.status (List.getElem_of_eq heq hi2)
    · have hanyh : ∀ o ∈ GetOrphanedUploads w.ledger 24 now,
          ((w, ([Event.ledgerGetOrphans 24] : List Event)).1.ledger.any
            fun x => x.uploadID = o.uploadID) = true := by
        intro o ho
        exact List.any_eq_true.mpr
          ⟨o, ((mem_getOrphanedUploads _ _ _ o).mp ho).1, by simp⟩
      have heq : (CleanupOrphanedUploads w f now).world.ledger
          = w.ledger.map (expireMark
              (((GetOrphanedUploads w.ledger 24 now).filter
                  fun o => ! f.updateErr o.uploadID).map
                fun o => o.uploadID)) := by
        have hl : (CleanupOrphanedUploads w f now).world.ledger
            = ((GetOrphanedUploads w.ledger 24 now).foldl (cleanupStep f now)
                (w, [Event.ledgerGetOrphans 24])).1.ledger := by
          simp [CleanupOrphanedUploads, hgf]
        rw [hl, cleanup_foldl_ledger f now _ _ hanyh]
      rw [List.getElem_of_eq heq hi2]
      simp only [List.getElem_map]
      unfold expireMark
      by_cases hin : (w.ledger[i]).uploadID
          ∈ ((GetOrphanedUploads w.ledger 24 now).filter
              fun o => ! f.updateErr o.uploadID).map fun o => o.uploadID
      · right
        refine ⟨?_, by simp [hin]⟩
        obtain ⟨o, homem, hequ⟩ := List.mem_map.mp hin
        obtain ⟨ho, -⟩ := List.mem_filter.mp homem
        have hmem := (mem_getOrphanedUploads _ _ _ o).mp ho
        have hir : o = w.ledger[i] :=
          List.inj_on_of_nodup_map hnd hmem.1 (List.getElem_mem hi) hequ
        rw [← hir]
        exact hmem.2.1
      · left
        simp [hin]

/-- C9 amended-claim witness: a two-record ledger (one unlinked pending, one
linked completed) with distinct uploadIDs. -/
theorem coordinator_status_transitions_witness :
    (∀ (f : GFaults) (u : String) (now i : Nat)
        (hi : i < (⟨[⟨1, "p", "staging/p", "image/png", 5,
            UploadStatus.pending, 0, 0, none, none⟩,
            ⟨2, "q", "staging/q", "image/png", 5, UploadStatus.completed, 0,
              0, some 9, some 4⟩], ["staging/p"]⟩ : World).ledger.length)
        (hi2 : i < (GetUploadStatus ⟨[⟨1, "p", "staging/p", "image/png", 5,
            UploadStatus.pending, 0, 0, none, none⟩,
            ⟨2, "q", "staging/q", "image/png", 5, UploadStatus.completed, 0,
              0, some 9, some 4⟩], ["staging/p"]⟩
            f u now).world.ledger.length),
        ((GetUploadStatus ⟨[⟨1, "p", "staging/p", "image/png", 5,
            UploadStatus.pending, 0, 0, none, none⟩,
            ⟨2, "q", "staging/q", "image/png", 5, UploadStatus.completed, 0,
              0, some 9, some 4⟩], ["staging/p"]⟩
            f u now).world.ledger[i]).status
            = ((⟨[⟨1, "p", "staging/p", "image/png", 5, UploadStatus.pending,
                0, 0, none, none⟩,
                ⟨2, "q", "staging/q", "image/png", 5, UploadStatus.completed,
                  0, 0, some 9, some 4⟩], ["staging/p"]⟩ : World).ledger[i]).status
        ∨ (((⟨[⟨1, "p", "staging/p", "image/png", 5, UploadStatus.pending, 0,
              0, none, none⟩,
              ⟨2, "q", "staging/q", "image/png", 5, UploadStatus.completed, 0,
                0, some 9, some 4⟩], ["staging/p"]⟩ : World).ledger[i]).status
              = UploadStatus.pending
            ∧ ((GetUploadStatus ⟨[⟨1, "p", "staging/p", "image/png", 5,
                UploadStatus.pending, 0, 0, none, none⟩,
                ⟨2, "q", "staging/q", "image/png", 5, UploadStatus.completed,
                  0, 0, some 9, some 4⟩], ["staging/p"]⟩
                f u now).world.ledger[i]).status = UploadStatus.completed))
    ∧ (∀ (f : VFaults) (u : String) (tx now i : Nat)
        (hi : i < (⟨[⟨1, "p", "staging/p", "image/png", 5,
            UploadStatus.pending, 0, 0, none, none⟩,
            ⟨2, "q", "staging/q", "image/png", 5, UploadStatus.completed, 0,
              0, some 9, some 4⟩], ["staging/p"]⟩ : World).ledger.length)
        (hi2 : i < (VerifyAndLinkUpload ⟨[⟨1, "p", "staging/p", "image/png",
            5, UploadStatus.pending, 0, 0, none, none⟩,
            ⟨2, "q", "staging/q", "image/png", 5, UploadStatus.completed, 0,
              0, some 9, some 4⟩], ["staging/p"]⟩
            f u tx now).world.ledger.length),
        ((VerifyAndLinkUpload ⟨[⟨1, "p", "staging/p", "image/png", 5,
            UploadStatus.pending, 0, 0, none, none⟩,
            ⟨2, "q", "staging/q", "image/png", 5, UploadStatus.completed, 0,
              0, some 9, some 4⟩], ["staging/p"]⟩
            f u tx now).world.ledger[i]).status
            = ((⟨[⟨1, "p", "staging/p", "image/png", 5, UploadStatus.pending,
                0, 0, none, none⟩,
                ⟨2, "q", "staging/q", "image/png", 5, UploadStatus.completed,
                  0, 0, some 9, some 4⟩], ["staging/p"]⟩ : World).ledger[i]).status
        ∨ (((⟨[⟨1, "p", "staging/p", "image/png", 5, UploadStatus.pending, 0,
              0, none, none⟩,
              ⟨2, "q", "staging/q", "image/png", 5, UploadStatus.completed, 0,
                0, some 9, some 4⟩], ["staging/p"]⟩ : World).ledger[i]).transactionID
              = none
            ∧ ((VerifyAndLinkUpload ⟨[⟨1, "p", "staging/p", "image/png", 5,
                UploadStatus.pending, 0, 0, none, none⟩,
                ⟨2, "q", "staging/q", "image/png", 5, UploadStatus.completed,
                  0, 0, some 9, some 4⟩], ["staging/p"]⟩
                f u tx now).world.ledger[i]).status = UploadStatus.completed))
    ∧ (∀ (f : CFaults) (now i : Nat)
        (hi : i < (⟨[⟨1, "p", "staging/p", "image/png", 5,
            UploadStatus.pending, 0, 0, none, none⟩,
            ⟨2, "q", "staging/q", "image/png", 5, UploadStatus.completed, 0,
              0, some 9, some 4⟩], ["staging/p"]⟩ : World).ledger.length)
        (hi2 : i < (CleanupOrphanedUploads ⟨[⟨1, "p", "staging/p",
            "image/png", 5, UploadStatus.pending, 0, 0, none, none⟩,
            ⟨2, "q", "staging/q", "image/png", 5, UploadStatus.completed, 0,
              0, some 9, some 4⟩], ["staging/p"]⟩
            f now).world.ledger.length),
        ((CleanupOrphanedUploads ⟨[⟨1, "p", "staging/p", "image/png", 5,
            UploadStatus.pending, 0, 0, none, none⟩,
            ⟨2, "q", "staging/q", "image/png", 5, UploadStatus.completed, 0,
              0, some 9, some 4⟩], ["staging/p"]⟩
            f now).world.ledger[i]).status
            = ((⟨[⟨1, "p", "staging/p", "image/png", 5, UploadStatus.pending,
                0, 0, none, none⟩,
                ⟨2, "q", "staging/q", "image/png", 5, UploadStatus.completed,
                  0, 0, some 9, some 4⟩], ["staging/p"]⟩ : World).ledger[i]).status
        ∨ (((⟨[⟨1, "p", "staging/p", "image/png", 5, UploadStatus.pending, 0,
              0, none, none⟩,
              ⟨2, "q", "staging/q", "image/png", 5, UploadStatus.completed, 0,
                0, some 9, some 4⟩], ["staging/p"]⟩ : World).ledger[i]).status
              = UploadStatus.pending
            ∧ ((CleanupOrphanedUploads ⟨[⟨1, "p", "staging/p", "image/png",
                5, UploadStatus.pending, 0, 0, none, none⟩,
                ⟨2, "q", "staging/q", "image/png", 5, UploadStatus.completed,
                  0, 0, some 9, some 4⟩], ["staging/p"]⟩
                f now).world.ledger[i]).status = UploadStatus.expired)) :=
  coordinator_status_transitions
    ⟨[⟨1, "p", "staging/p", "image/png", 5, UploadStatus.pending, 0, 0, none,
      none⟩,
      ⟨2, "q", "staging/q", "image/png", 5, UploadStatus.completed, 0, 0,
        some 9, some 4⟩], ["staging/p"]⟩ (by decide)

end Cashflow
